import Mathlib

/-!
Verification of the Mandelbrot renderer in `src/main.js`.

The program is embedded shallowly: JavaScript double-precision arithmetic is
modelled by exact rational arithmetic (`ℚ`), the mutable globals
(`maxIterations`, `zoom`, `offsetX`, `offsetY`, drag bookkeeping) become an
explicit `FractalState` record, and the per-pixel `while` loop becomes a
fuel-based recursion whose fuel is the remaining iteration budget
`maxIterations - iteration`, which encodes the loop guard
`iteration < maxIterations` exactly.
-/

namespace Fractal

attribute [local semireducible] Rat.add Rat.mul Rat.inv Rat.sub

/-- State record holding the script-level mutable globals of `main.js`:
`maxIterations`, `zoom`, `offsetX`, `offsetY` (the fractal parameters) and
`isDragging`, `startX`, `startY` (pan bookkeeping used only by the mouse
handlers). -/
structure FractalState where
  maxIterations : ℤ
  zoom : ℚ
  offsetX : ℚ
  offsetY : ℚ
  isDragging : Bool
  startX : ℚ
  startY : ℚ
deriving DecidableEq

/-- One RGBA pixel as written into the `ImageData` byte array: four
consecutive channel values at indices `(py*width+px)*4 + 0..3`. -/
structure RGBA where
  r : ℤ
  g : ℤ
  b : ℤ
  a : ℤ
deriving DecidableEq

/-- JavaScript `Math.round`: round half away from zero toward positive
infinity, i.e. `⌊x + 1/2⌋`. -/
def jsRound (x : ℚ) : ℤ := ⌊x + 1/2⌋

/-- The `hue2rgb(p, q, t)` helper of `hslToRgb` in `main.js`: the two
sequential wrap adjustments `if (t < 0) t += 1; if (t > 1) t -= 1;`
followed by the piecewise-linear channel formula. -/
def hue2rgb (p q t : ℚ) : ℚ :=
  let t1 := if t < 0 then t + 1 else t
  let t2 := if t1 > 1 then t1 - 1 else t1
  if t2 < 1/6 then p + (q - p) * 6 * t2
  else if t2 < 1/2 then q
  else if t2 < 2/3 then p + (q - p) * (2/3 - t2) * 6
  else p

/-- The `hslToRgb(h, s, l)` function of `main.js`, returning the rounded
channel triple `[round(r*255), round(g*255), round(b*255)]`. -/
def hslToRgb (h s l : ℚ) : ℤ × ℤ × ℤ :=
  if s = 0 then
    (jsRound (l * 255), jsRound (l * 255), jsRound (l * 255))
  else
    let q := if l < 1/2 then l * (1 + s) else l + s - l * s
    let p := 2 * l - q
    (jsRound (hue2rgb p q (h + 1/3) * 255),
     jsRound (hue2rgb p q h * 255),
     jsRound (hue2rgb p q (h - 1/3) * 255))

/-- Fuel-based unfolding of the escape-time `while` loop of
`generateMandelbrot`:
`while (x*x + y*y <= 4 && iteration < maxIterations) { ... }`.
The fuel is the number of loop iterations still allowed, i.e.
`maxIterations - iteration`, so `fuel = 0` is exactly the failure of the
guard `iteration < maxIterations`. -/
def mandelLoopAux (x0 y0 : ℚ) : ℕ → ℚ → ℚ → ℕ → ℕ
  | 0, _, _, iteration => iteration
  | fuel + 1, x, y, iteration =>
    if x * x + y * y ≤ 4 then
      mandelLoopAux x0 y0 fuel (x * x - y * y + x0) (2 * x * y + y0) (iteration + 1)
    else iteration

/-- Iteration count computed by the escape-time loop of `generateMandelbrot`
for the complex parameter `c = (x0, y0)`, starting from
`x = 0, y = 0, iteration = 0`. -/
def mandelbrotIter (x0 y0 : ℚ) (maxIterations : ℤ) : ℕ :=
  mandelLoopAux x0 y0 maxIterations.toNat 0 0 0

/-- The ternary of `generateMandelbrot`:
`iteration === maxIterations ? 0 : (iteration / maxIterations) * 360`. -/
def colorValue (iteration : ℕ) (maxIterations : ℤ) : ℚ :=
  if (iteration : ℤ) = maxIterations then 0
  else ((iteration : ℚ) / (maxIterations : ℚ)) * 360

/-- The RGBA value `generateMandelbrot` writes for one pixel whose plane
coordinate is `(x0, y0)`: `hslToRgb(colorValue / 360, 1, 0.5)` in the
first three channels and `255` in the alpha channel. -/
def pixelRGBA (maxIterations : ℤ) (x0 y0 : ℚ) : RGBA :=
  let iteration := mandelbrotIter x0 y0 maxIterations
  let rgb := hslToRgb (colorValue iteration maxIterations / 360) 1 (1/2)
  ⟨rgb.1, rgb.2.1, rgb.2.2, 255⟩

/-- The `generateMandelbrot` function of `main.js`: the nested
`for (py) for (px)` loops write the pixels in row-major order into the
`ImageData` array at index `(py * width + px) * 4`, which the flat
row-major list models; the inline plane-coordinate expressions
`(px - width / 2) * (4 / width) / zoom + offsetX` and
`(py - height / 2) * (4 / height) / zoom + offsetY` are kept verbatim. -/
def generateMandelbrot (st : FractalState) (width height : ℕ) : List RGBA :=
  (List.range height).flatMap fun py : ℕ =>
    (List.range width).map fun px : ℕ =>
      pixelRGBA st.maxIterations
        (((px : ℚ) - (width : ℚ) / 2) * (4 / (width : ℚ)) / st.zoom + st.offsetX)
        (((py : ℚ) - (height : ℚ) / 2) * (4 / (height : ℚ)) / st.zoom + st.offsetY)

/-- The `wheel` event handler of `main.js`: record the plane coordinate
under the mouse, multiply `zoom` by `1.1` when `deltaY < 0` and divide it
by `1.1` otherwise, then recompute `offsetX`/`offsetY` so the recorded
plane point stays under the mouse. (It then calls `generateMandelbrot`,
which touches no state; only the state update is modelled here.) -/
def wheelZoom (st : FractalState) (width height : ℕ) (mouseX mouseY deltaY : ℚ) :
    FractalState :=
  let x0 := (mouseX - (width : ℚ) / 2) * (4 / (width : ℚ)) / st.zoom + st.offsetX
  let y0 := (mouseY - (height : ℚ) / 2) * (4 / (height : ℚ)) / st.zoom + st.offsetY
  let zoom' := if deltaY < 0 then st.zoom * (11/10) else st.zoom / (11/10)
  { st with
    zoom := zoom'
    offsetX := x0 - (mouseX - (width : ℚ) / 2) * (4 / (width : ℚ)) / zoom'
    offsetY := y0 - (mouseY - (height : ℚ) / 2) * (4 / (height : ℚ)) / zoom' }

/-- Spec-side pixel-to-plane mapping, horizontal coordinate, from §4.1:
`x0 = (px − width/2) × (4/width) / zoom + centerReal`. -/
def spec_x0 (px width zoom centerReal : ℚ) : ℚ :=
  (px - width / 2) * (4 / width) / zoom + centerReal

/-- Spec-side pixel-to-plane mapping, vertical coordinate, from §4.1:
`y0 = (py − height/2) × (4/height) / zoom + centerImag`. -/
def spec_y0 (py height zoom centerImag : ℚ) : ℚ :=
  (py - height / 2) * (4 / height) / zoom + centerImag

/-- Spec-side color policy of §4.2, `colorOf(iterationCount, iterationBudget)`:
hue 0 (the sentinel) when the count equals the budget, hue
`iterationCount / iterationBudget` (the claim's
`(iterationCount / iterationBudget) × 360` degrees normalised to `[0,1)`)
otherwise, at saturation 1 and lightness 0.5. -/
def colorOf (iterationCount : ℕ) (iterationBudget : ℤ) : ℤ × ℤ × ℤ :=
  hslToRgb (if (iterationCount : ℤ) = iterationBudget then 0
            else (iterationCount : ℚ) / (iterationBudget : ℚ)) 1 (1/2)

/-- Spec-side escape-time recurrence of §4.1, written as the literal
`while x² + y² ≤ 4 and iteration < iterationBudget` loop on the state
`(x, y, iteration)`, returning the final `iteration`. -/
def specEscapeTime (x0 y0 : ℚ) (budget : ℤ) (x y : ℚ) (iteration : ℕ) : ℕ :=
  if x * x + y * y ≤ 4 ∧ (iteration : ℤ) < budget then
    specEscapeTime x0 y0 budget (x * x - y * y + x0) (2 * x * y + y0) (iteration + 1)
  else iteration
termination_by (budget - iteration).toNat
decreasing_by omega

/-- Sample state used by the concrete witnesses: budget 3, the initial view
`zoom = 1`, `offsetX = -0.5`, `offsetY = 0` of `main.js`, no drag active. -/
def sampleState : FractalState := ⟨3, 1, -1/2, 0, false, 0, 0⟩

/-- Unfolding lemma: the fuel-based loop agrees with the literal
`while`-loop recurrence whenever the fuel is the remaining budget
`(budget - iteration).toNat`. -/
theorem mandelLoopAux_eq_spec (x0 y0 : ℚ) (budget : ℤ) :
    ∀ (fuel : ℕ) (x y : ℚ) (iteration : ℕ),
      fuel = (budget - iteration).toNat →
      mandelLoopAux x0 y0 fuel x y iteration = specEscapeTime x0 y0 budget x y iteration
  | 0, x, y, iteration, hfuel => by
    have hng : ¬(x * x + y * y ≤ 4 ∧ (iteration : ℤ) < budget) :=
      fun hc => absurd hc.2 (by omega)
    rw [specEscapeTime, if_neg hng, mandelLoopAux]
  | fuel + 1, x, y, iteration, hfuel => by
    have hlt : (iteration : ℤ) < budget := by omega
    rw [mandelLoopAux, specEscapeTime]
    by_cases hb : x * x + y * y ≤ 4
    · rw [if_pos hb, if_pos ⟨hb, hlt⟩]
      exact mandelLoopAux_eq_spec x0 y0 budget fuel _ _ (iteration + 1) (by omega)
    · rw [if_neg hb, if_neg fun hc => hb hc.1]

/-- Monotone upper bound: the loop adds at most `fuel` to the entry
iteration counter. -/
theorem mandelLoopAux_le (x0 y0 : ℚ) :
    ∀ (fuel : ℕ) (x y : ℚ) (iteration : ℕ),
      mandelLoopAux x0 y0 fuel x y iteration ≤ iteration + fuel
  | 0, _, _, _ => Nat.le_refl _
  | fuel + 1, x, y, iteration => by
    rw [mandelLoopAux]
    by_cases hb : x * x + y * y ≤ 4
    · rw [if_pos hb]
      have := mandelLoopAux_le x0 y0 fuel (x * x - y * y + x0) (2 * x * y + y0) (iteration + 1)
      omega
    · rw [if_neg hb]
      omega

/-- Monotone lower bound: the loop never decreases the iteration counter. -/
theorem mandelLoopAux_ge (x0 y0 : ℚ) :
    ∀ (fuel : ℕ) (x y : ℚ) (iteration : ℕ),
      iteration ≤ mandelLoopAux x0 y0 fuel x y iteration
  | 0, _, _, _ => Nat.le_refl _
  | fuel + 1, x, y, iteration => by
    rw [mandelLoopAux]
    by_cases hb : x * x + y * y ≤ 4
    · rw [if_pos hb]
      have := mandelLoopAux_ge x0 y0 fuel (x * x - y * y + x0) (2 * x * y + y0) (iteration + 1)
      omega
    · rw [if_neg hb]

/-- C5: the HSL-to-RGB conversion sends the three primary hues at full
saturation and half lightness to pure red, green and blue:
`hslToRgb(0, 1, 0.5) = (255, 0, 0)`, `hslToRgb(1/3, 1, 0.5) = (0, 255, 0)`,
`hslToRgb(2/3, 1, 0.5) = (0, 0, 255)`. -/
theorem hslToRgb_primaries :
    hslToRgb 0 1 (1/2) = (255, 0, 0) ∧
    hslToRgb (1/3) 1 (1/2) = (0, 255, 0) ∧
    hslToRgb (2/3) 1 (1/2) = (0, 0, 255) := by
  decide

/-- C2: for every pixel `(px, py)` with `px < width` and `py < height`, the
complex coordinate evaluated by the render is exactly the mapping stated by
the spec, `x0 = (px − width/2) · (4/width) / zoom + centerReal` and
`y0 = (py − height/2) · (4/height) / zoom + centerImag`, with the viewport
center given by `offsetX`/`offsetY`: the whole pixel buffer equals the
buffer computed at the spec-side coordinates. -/
theorem render_plane_mapping (st : FractalState) (width height : ℕ) :
    generateMandelbrot st width height =
      (List.range height).flatMap fun py : ℕ =>
        (List.range width).map fun px : ℕ =>
          pixelRGBA st.maxIterations
            (spec_x0 px width st.zoom st.offsetX)
            (spec_y0 py height st.zoom st.offsetY) := rfl

/-- C3: for every plane coordinate and iteration budget, the iteration
count computed by the render loop equals the reference escape-time
recurrence of the spec, started at `x = 0, y = 0, iteration = 0`, with the
escape test `x² + y² ≤ 4` (radius 2) applied before each step. -/
theorem mandelbrotIter_eq_specEscapeTime (x0 y0 : ℚ) (budget : ℤ) :
    mandelbrotIter x0 y0 budget = specEscapeTime x0 y0 budget 0 0 0 :=
  mandelLoopAux_eq_spec x0 y0 budget budget.toNat 0 0 0 (by omega)

/-- Normalisation of the hue actually passed to `hslToRgb`: dividing the
ternary `colorValue` by 360 gives `0` for the sentinel and
`iteration / budget` otherwise. -/
theorem colorValue_div_360 (iteration : ℕ) (budget : ℤ) :
    colorValue iteration budget / 360 =
      if (iteration : ℤ) = budget then 0 else (iteration : ℚ) / (budget : ℚ) := by
  unfold colorValue
  split
  · norm_num
  · rw [mul_div_assoc]
    norm_num

/-- Evaluation of one pixel at budget `0`: the loop runs zero times, the
sentinel branch is taken and the pixel is opaque pure red. -/
theorem pixelRGBA_budget_zero (x0 y0 : ℚ) : pixelRGBA 0 x0 y0 = ⟨255, 0, 0, 255⟩ := by
  have h0 : mandelbrotIter x0 y0 0 = 0 := rfl
  have hh : hslToRgb (colorValue 0 0 / 360) 1 (1/2) = (255, 0, 0) := by decide
  rw [pixelRGBA, h0, hh]

/-- Flattening a constant row over `List.range`. -/
theorem range_flatMap_replicate {α : Type} (c : α) :
    ∀ rows w : ℕ,
      ((List.range rows).flatMap fun _ => List.replicate w c) = List.replicate (rows * w) c
  | 0, w => by simp
  | rows + 1, w => by
    rw [List.range_succ, List.flatMap_append, range_flatMap_replicate c rows w,
      List.flatMap_cons, List.flatMap_nil, List.append_nil, ← List.replicate_add]
    congr 1
    rw [Nat.succ_mul]

/-- Length of a row-major flattening whose rows all have width `w`. -/
theorem flatMap_range_length {α : Type} (g : ℕ → List α) (w : ℕ)
    (hg : ∀ i, (g i).length = w) :
    ∀ rows : ℕ, ((List.range rows).flatMap g).length = rows * w
  | 0 => by simp
  | rows + 1 => by
    rw [List.range_succ, List.flatMap_append, List.length_append,
      flatMap_range_length g w hg rows, List.flatMap_cons, List.flatMap_nil,
      List.append_nil, hg rows, Nat.succ_mul]

/-- Row-major indexing of the flattening: the entry at `r * w + c` is row
`r`, column `c`. -/
theorem flatMap_range_getElem {α : Type} (g : ℕ → List α) (w : ℕ)
    (hg : ∀ i, (g i).length = w) :
    ∀ (rows r c : ℕ), r < rows → c < w →
      ((List.range rows).flatMap g)[r * w + c]? = (g r)[c]?
  | 0, r, _, hr, _ => absurd hr (Nat.not_lt_zero r)
  | rows + 1, r, c, hr, hc => by
    rw [List.range_succ, List.flatMap_append, List.getElem?_append,
      flatMap_range_length g w hg rows]
    by_cases hrr : r < rows
    · have hidx : r * w + c < rows * w := by
        calc r * w + c < r * w + w := by omega
          _ = (r + 1) * w := (Nat.succ_mul r w).symm
          _ ≤ rows * w := Nat.mul_le_mul_right w hrr
      rw [if_pos hidx]
      exact flatMap_range_getElem g w hg rows r c hrr hc
    · have hreq : r = rows := by omega
      subst hreq
      rw [if_neg (by omega), List.flatMap_cons, List.flatMap_nil, List.append_nil,
        Nat.add_sub_cancel_left]

/-- Positional form of the render: the buffer entry at row-major index
`py * width + px` is the pixel computed at that pixel's own plane
coordinate. -/
theorem generateMandelbrot_getElem (st : FractalState) (width height px py : ℕ)
    (hpx : px < width) (hpy : py < height) :
    (generateMandelbrot st width height)[py * width + px]? =
      some (pixelRGBA st.maxIterations (spec_x0 px width st.zoom st.offsetX)
        (spec_y0 py height st.zoom st.offsetY)) := by
  have hrow := flatMap_range_getElem
    (fun i : ℕ => (List.range width).map fun j : ℕ =>
      pixelRGBA st.maxIterations (spec_x0 j width st.zoom st.offsetX)
        (spec_y0 i height st.zoom st.offsetY))
    width (fun i => by rw [List.length_map, List.length_range])
    height py px hpy hpx
  have hdef : generateMandelbrot st width height =
      (List.range height).flatMap fun i : ℕ =>
        (List.range width).map fun j : ℕ =>
          pixelRGBA st.maxIterations (spec_x0 j width st.zoom st.offsetX)
            (spec_y0 i height st.zoom st.offsetY) := rfl
  rw [hdef, hrow, List.getElem?_map]
  simp [List.getElem?_range, hpx]

/-- Unfolding of one written pixel through the spec-side color policy: the
code's `colorValue / 360` hue is `colorOf` at that pixel's iteration
count, and the alpha channel is 255. -/
theorem pixelRGBA_eq_colorOf (budget : ℤ) (x0 y0 : ℚ) :
    pixelRGBA budget x0 y0 =
      ⟨(colorOf (mandelbrotIter x0 y0 budget) budget).1,
       (colorOf (mandelbrotIter x0 y0 budget) budget).2.1,
       (colorOf (mandelbrotIter x0 y0 budget) budget).2.2, 255⟩ := by
  simp only [pixelRGBA, colorOf, colorValue_div_360]

/-- C4: the color written at pixel `(px, py)` is `hslToRgb` at saturation 1
and lightness 0.5 applied to that pixel's own iteration count: hue 0 when
the count at that pixel's plane coordinate equals the budget (the
non-escape sentinel) and hue `count / budget` otherwise, and that pixel's
alpha channel is 255. -/
theorem render_color_policy (st : FractalState) (width height px py : ℕ)
    (hpx : px < width) (hpy : py < height) :
    (generateMandelbrot st width height)[py * width + px]? =
      some
        ⟨(colorOf (mandelbrotIter (spec_x0 px width st.zoom st.offsetX)
            (spec_y0 py height st.zoom st.offsetY) st.maxIterations) st.maxIterations).1,
         (colorOf (mandelbrotIter (spec_x0 px width st.zoom st.offsetX)
            (spec_y0 py height st.zoom st.offsetY) st.maxIterations) st.maxIterations).2.1,
         (colorOf (mandelbrotIter (spec_x0 px width st.zoom st.offsetX)
            (spec_y0 py height st.zoom st.offsetY) st.maxIterations) st.maxIterations).2.2,
         255⟩ := by
  rw [generateMandelbrot_getElem st width height px py hpx hpy, pixelRGBA_eq_colorOf]

/-- Closed instance of C4 at pixel (0, 0) of a 1×1 canvas at budget 1. -/
theorem render_color_policy_witness :
    (generateMandelbrot ⟨1, 1, -1/2, 0, false, 0, 0⟩ 1 1)[0 * 1 + 0]? =
      some
        ⟨(colorOf (mandelbrotIter (spec_x0 ((0 : ℕ) : ℚ) ((1 : ℕ) : ℚ) 1 (-1/2))
            (spec_y0 ((0 : ℕ) : ℚ) ((1 : ℕ) : ℚ) 1 0) 1) 1).1,
         (colorOf (mandelbrotIter (spec_x0 ((0 : ℕ) : ℚ) ((1 : ℕ) : ℚ) 1 (-1/2))
            (spec_y0 ((0 : ℕ) : ℚ) ((1 : ℕ) : ℚ) 1 0) 1) 1).2.1,
         (colorOf (mandelbrotIter (spec_x0 ((0 : ℕ) : ℚ) ((1 : ℕ) : ℚ) 1 (-1/2))
            (spec_y0 ((0 : ℕ) : ℚ) ((1 : ℕ) : ℚ) 1 0) 1) 1).2.2,
         255⟩ := by
  exact render_color_policy ⟨1, 1, -1/2, 0, false, 0, 0⟩ 1 1 0 0 (by decide) (by decide)

/-- C6: the render is a pure function of the viewport parameters and the
dimensions: two states agreeing on `maxIterations`, `zoom`, `offsetX` and
`offsetY` (whatever their drag bookkeeping) produce byte-identical pixel
buffers, so identical inputs always yield identical output. -/
theorem render_deterministic (s t : FractalState) (width height : ℕ)
    (hm : s.maxIterations = t.maxIterations) (hz : s.zoom = t.zoom)
    (hx : s.offsetX = t.offsetX) (hy : s.offsetY = t.offsetY) :
    generateMandelbrot s width height = generateMandelbrot t width height := by
  simp only [generateMandelbrot, hm, hz, hx, hy]

/-- Closed instance of C6 at two concrete states that differ only in the
drag bookkeeping. -/
theorem render_deterministic_witness :
    generateMandelbrot ⟨2, 1, 0, 0, true, 5, 7⟩ 1 1 =
      generateMandelbrot ⟨2, 1, 0, 0, false, 0, 0⟩ 1 1 :=
  render_deterministic ⟨2, 1, 0, 0, true, 5, 7⟩ ⟨2, 1, 0, 0, false, 0, 0⟩ 1 1 rfl rfl rfl rfl

/-- C7: a wheel-zoom step leaves the plane coordinate under the pointer
unchanged: the spec mapping evaluated at the pointer pixel under the new
`zoom`/`offsetX`/`offsetY` equals its value under the old ones, for either
scroll direction. -/
theorem wheelZoom_fixes_pointer_coordinate (st : FractalState) (width height : ℕ)
    (mouseX mouseY deltaY : ℚ) (hz : 0 < st.zoom) :
    spec_x0 mouseX width (wheelZoom st width height mouseX mouseY deltaY).zoom
        (wheelZoom st width height mouseX mouseY deltaY).offsetX =
      spec_x0 mouseX width st.zoom st.offsetX ∧
    spec_y0 mouseY height (wheelZoom st width height mouseX mouseY deltaY).zoom
        (wheelZoom st width height mouseX mouseY deltaY).offsetY =
      spec_y0 mouseY height st.zoom st.offsetY := by
  simp only [wheelZoom, spec_x0, spec_y0]
  constructor <;> ring

/-- Closed instance of C7 at the sample state, an 8×8 canvas, pointer
(3, 3) and a zoom-in scroll. -/
theorem wheelZoom_fixes_pointer_coordinate_witness :
    spec_x0 3 ((8 : ℕ) : ℚ) (wheelZoom sampleState 8 8 3 3 (-1)).zoom
        (wheelZoom sampleState 8 8 3 3 (-1)).offsetX =
      spec_x0 3 ((8 : ℕ) : ℚ) sampleState.zoom sampleState.offsetX ∧
    spec_y0 3 ((8 : ℕ) : ℚ) (wheelZoom sampleState 8 8 3 3 (-1)).zoom
        (wheelZoom sampleState 8 8 3 3 (-1)).offsetY =
      spec_y0 3 ((8 : ℕ) : ℚ) sampleState.zoom sampleState.offsetY := by
  exact wheelZoom_fixes_pointer_coordinate sampleState 8 8 3 3 (-1) (by norm_num [sampleState])

/-- C8: with a budget of at least 1, the per-pixel iteration count lies in
`[0, budget]` (it is a natural number, so nonnegative by type), and the
sentinel branch of the color ternary is taken exactly when the count equals
the budget. -/
theorem iteration_count_invariant (x0 y0 : ℚ) (budget : ℤ) (hb : 1 ≤ budget) :
    (mandelbrotIter x0 y0 budget : ℤ) ≤ budget ∧
      (colorValue (mandelbrotIter x0 y0 budget) budget = 0 ↔
        (mandelbrotIter x0 y0 budget : ℤ) = budget) := by
  have hle : mandelbrotIter x0 y0 budget ≤ budget.toNat := by
    have := mandelLoopAux_le x0 y0 budget.toNat 0 0 0
    simpa [mandelbrotIter] using this
  have hone : 1 ≤ mandelbrotIter x0 y0 budget := by
    have htn : budget.toNat = budget.toNat - 1 + 1 := by omega
    rw [mandelbrotIter, htn, mandelLoopAux, if_pos (by norm_num : (0:ℚ) * 0 + 0 * 0 ≤ 4)]
    exact mandelLoopAux_ge x0 y0 _ _ _ 1
  refine ⟨by omega, ?_⟩
  unfold colorValue
  split
  · simp_all
  · rename_i hne
    have hq : ((mandelbrotIter x0 y0 budget : ℚ) / (budget : ℚ)) * 360 ≠ 0 := by
      have hn : (0 : ℚ) < (mandelbrotIter x0 y0 budget : ℚ) := by
        exact_mod_cast Nat.lt_of_lt_of_le Nat.zero_lt_one hone
      have hd : (0 : ℚ) < (budget : ℚ) := by exact_mod_cast hb
      positivity
    exact ⟨fun hzero => absurd hzero hq, fun heq => absurd heq hne⟩

/-- Closed instance of C8 at `c = (3, 3)` and budget 1. -/
theorem iteration_count_invariant_witness :
    (mandelbrotIter 3 3 1 : ℤ) ≤ 1 ∧
      (colorValue (mandelbrotIter 3 3 1) 1 = 0 ↔ (mandelbrotIter 3 3 1 : ℤ) = 1) := by
  exact iteration_count_invariant 3 3 1 (by norm_num)

/-- C9: a zoom-in wheel step (multiply `zoom` by 1.1) followed by a
zoom-out step (divide by 1.1), in either order, restores the original zoom
value exactly in the rational model, hence well within the 1e-9 relative
tolerance the spec allows. -/
theorem zoom_roundtrip_tolerance (st : FractalState) (width height : ℕ)
    (mouseX mouseY : ℚ) (hz : 0 < st.zoom) :
    |(wheelZoom (wheelZoom st width height mouseX mouseY (-1)) width height mouseX mouseY 1).zoom
        - st.zoom| ≤ st.zoom * (1 / 10 ^ 9) ∧
    |(wheelZoom (wheelZoom st width height mouseX mouseY 1) width height mouseX mouseY (-1)).zoom
        - st.zoom| ≤ st.zoom * (1 / 10 ^ 9) := by
  have h1 : ((-1 : ℚ)) < 0 := by norm_num
  have h2 : ¬((1 : ℚ) < 0) := by norm_num
  have hin : st.zoom * (11 / 10) / (11 / 10) = st.zoom :=
    mul_div_cancel_right₀ st.zoom (by norm_num)
  have hout : st.zoom / (11 / 10) * (11 / 10) = st.zoom :=
    div_mul_cancel₀ st.zoom (by norm_num)
  simp only [wheelZoom, if_pos h1, if_neg h2, hin, hout, sub_self, abs_zero]
  constructor <;> positivity

/-- Closed instance of C9 at the sample state. -/
theorem zoom_roundtrip_tolerance_witness :
    |(wheelZoom (wheelZoom sampleState 8 8 3 3 (-1)) 8 8 3 3 1).zoom - sampleState.zoom| ≤
        sampleState.zoom * (1 / 10 ^ 9) ∧
    |(wheelZoom (wheelZoom sampleState 8 8 3 3 1) 8 8 3 3 (-1)).zoom - sampleState.zoom| ≤
        sampleState.zoom * (1 / 10 ^ 9) := by
  exact zoom_roundtrip_tolerance sampleState 8 8 3 3 (by norm_num [sampleState])

/-- C10: at `maxIterations = 0` the render completes without any error:
the escape loop runs zero times for every pixel, the count `0` equals the
budget, so every pixel gets the sentinel color `(255, 0, 0)` at alpha 255
and the buffer is uniform. -/
theorem render_budget_zero_uniform (st : FractalState) (width height : ℕ)
    (hm : st.maxIterations = 0) :
    generateMandelbrot st width height =
      List.replicate (height * width) ⟨255, 0, 0, 255⟩ := by
  simp only [generateMandelbrot, hm, pixelRGBA_budget_zero, List.map_const',
    List.length_range]
  exact range_flatMap_replicate _ height width

/-- Closed instance of C10 at budget 0 on a 1×1 canvas. -/
theorem render_budget_zero_uniform_witness :
    generateMandelbrot ⟨0, 1, -1/2, 0, false, 0, 0⟩ 1 1 =
      List.replicate (1 * 1) ⟨255, 0, 0, 255⟩ := by
  exact render_budget_zero_uniform ⟨0, 1, -1/2, 0, false, 0, 0⟩ 1 1 rfl

/-- C1: contrary to the spec's error-handling design, `generateMandelbrot`
performs no validation of the iteration budget: at `maxIterations = 0` and
at `maxIterations = -1` it silently returns a degenerate uniform opaque red
buffer (here on a 2×2 canvas at the initial view) instead of failing with
an `InvalidConfiguration` error before any pixel work. -/
theorem generateMandelbrot_ignores_nonpositive_budget :
    generateMandelbrot ⟨0, 1, -1/2, 0, false, 0, 0⟩ 2 2 =
        List.replicate 4 ⟨255, 0, 0, 255⟩ ∧
    generateMandelbrot ⟨-1, 1, -1/2, 0, false, 0, 0⟩ 2 2 =
        List.replicate 4 ⟨255, 0, 0, 255⟩ := by
  decide

end Fractal
